import Mathlib

/-!
Verification of the telegram-commander media bot.

Shallow embedding of the bot's core subsystems, translated from the
JavaScript source: the metadata extractor, the ingestion grouping pass,
the caption batcher, the delivery client's rate-limit retry loop, the
HTML escaping helper, and the callback-query dispatch of the browse
state machine.  Strings are modelled as lists of characters (`Str`);
all definitions are executable so that concrete runs of the embedded
code can be evaluated inside proofs.
-/

set_option maxRecDepth 10000

/-- Strings are modelled as lists of characters; JavaScript string
length is character count (all inputs of interest are ASCII, where the
two coincide). -/
abbrev Str := List Char

/-! ## Generic string helpers (JavaScript built-ins) -/

/-- Auxiliary accumulator for `splitOnChar`. -/
def splitOnCharAux (c : Char) : Str → Str → List Str
  | [], acc => [acc.reverse]
  | x :: xs, acc =>
    if x = c then acc.reverse :: splitOnCharAux c xs []
    else splitOnCharAux c xs (x :: acc)

/-- JavaScript `s.split(sep)` for a one-character separator: always
returns at least one (possibly empty) piece. -/
def splitOnChar (c : Char) (s : Str) : List Str :=
  splitOnCharAux c s []

/-- Join a list of strings with a separator, as JavaScript
`Array.prototype.join(sep)` (the default separator is a comma). -/
def joinWith (sep : Str) : List Str → Str
  | [] => []
  | [p] => p
  | p :: ps => p ++ sep ++ joinWith sep ps

/-- JavaScript `String.prototype.trim`: strip leading and trailing
whitespace. -/
def trimStr (s : Str) : Str :=
  ((s.dropWhile Char.isWhitespace).reverse.dropWhile Char.isWhitespace).reverse

/-- Lowercase a string character-wise (ASCII), for the `/i` regex flag
and case-insensitive comparisons. -/
def lowerStr (s : Str) : Str := s.map Char.toLower

/-- JavaScript `s.replace(/c/g, rep)`: replace every occurrence of the
character `c` by the string `rep`. -/
def replAll (c : Char) (rep : Str) : Str → Str
  | [] => []
  | x :: xs => if x = c then rep ++ replAll c rep xs else x :: replAll c rep xs

/-! ## Metadata Extractor (ingestion source, part_003) -/

/-- Regex test `/\.(png|jpg|jpeg)$/i` from the ingestion source: the
URL ends, case-insensitively, in one of the image extensions. -/
def isImage (url : Str) : Bool :=
  ".png".data.isSuffixOf (lowerStr url) ||
  ".jpg".data.isSuffixOf (lowerStr url) ||
  ".jpeg".data.isSuffixOf (lowerStr url)

/-- Regex test `/\.(mkv|mp4)$/i` from the ingestion source. -/
def isVideo (url : Str) : Bool :=
  ".mkv".data.isSuffixOf (lowerStr url) ||
  ".mp4".data.isSuffixOf (lowerStr url)

/-- Source `extractFileName`: take the last `/`-segment, drop the last
`.`-part, join the remaining parts with `Array.prototype.join()` (whose
default separator is a comma), then replace dashes by spaces. -/
def extractFileName (url : Str) : Str :=
  let fileName := (splitOnChar '/' url).getLastD []
  let nameParts := (splitOnChar '.' fileName).dropLast
  (joinWith [','] nameParts).map (fun c => if c = '-' then ' ' else c)

/-- Maximal digit run at the head of a string, with the rest: models a
greedy `\d+` (or an initial segment thereof). -/
def takeDigits : Str → Str × Str
  | [] => ([], [])
  | c :: cs =>
    if c.isDigit then
      let p := takeDigits cs
      (c :: p.1, p.2)
    else ([], c :: cs)

/-- Match the regex fragment `(?:E\d+|\d{2})\.` at the head of a string
(case-insensitive `E`), returning the characters matched by the group
(without the trailing dot), as JavaScript alternation would: the `E`
branch first, then the two-digit branch. -/
def matchTwoDigits : Str → Option Str
  | d1 :: d2 :: rest =>
    if d1.isDigit && d2.isDigit && rest.head? = some '.' then some [d1, d2]
    else none
  | _ => none

/-- E-branch of the episode alternation; falls back to the two-digit
branch exactly when the `E\d+\.` branch fails, as regex backtracking
would (a digit can never stand where the trailing dot is required). -/
def matchEpPart : Str → Option Str
  | [] => none
  | e :: rest =>
    if e.toLower = 'e' then
      match takeDigits rest with
      | ([], _) => matchTwoDigits (e :: rest)
      | (es, r2) =>
        if r2.head? = some '.' then some (e :: es)
        else matchTwoDigits (e :: rest)
    else matchTwoDigits (e :: rest)

/-- Match the regex `\.(S\d+\.(?:E\d+|\d{2}))\.` (flag `/i`) at the
head of a string, returning the characters captured by group 1. -/
def matchSE1At : Str → Option Str
  | '.' :: s :: rest =>
    if s.toLower = 's' then
      match takeDigits rest with
      | ([], _) => none
      | (ds, r1) =>
        match r1 with
        | '.' :: r2 =>
          match matchEpPart r2 with
          | some ep => some (s :: (ds ++ '.' :: ep))
          | none => none
        | _ => none
    else none
  | _ => none

/-- Match the regex `\.(\d{2})\.` at the head of a string. -/
def matchEpOnlyAt : Str → Option Str
  | '.' :: d1 :: d2 :: '.' :: _ =>
    if d1.isDigit && d2.isDigit then some [d1, d2] else none
  | _ => none

/-- Leftmost-match scan: try the position matcher at every start
position from left to right, as JavaScript `String.prototype.match`
does. -/
def scanMatch (f : Str → Option Str) : Str → Option Str
  | [] => none
  | c :: rest =>
    match f (c :: rest) with
    | some x => some x
    | none => scanMatch f rest

/-- Source `extractSeasonAndEpisode`: try `/\.(S\d+\.(?:E\d+|\d{2}))\./i`,
split the captured group at its dot into season and episode tokens,
drop the `S` and a literal uppercase `E` (the `startsWith("E")` check in
the source is case-sensitive), and render the result; otherwise try
`/\.(\d{2})\./`; otherwise return the sentinel. -/
def extractSeasonAndEpisode (url : Str) : Str :=
  match scanMatch matchSE1At url with
  | some grp =>
    let parts := splitOnChar '.' grp
    let season := parts.headD []
    let episode := (parts.drop 1).headD []
    let episodeNumber := if episode.head? = some 'E' then episode.drop 1 else episode
    "Season ".data ++ season.drop 1 ++ ", Episode ".data ++ episodeNumber
  | none =>
    match scanMatch matchEpOnlyAt url with
    | some ds => "Episode ".data ++ ds
    | none => "Unknown Season and Episode".data

/-- Case-insensitive token match at the head of a string, returning the
source-cased matched characters and the rest. -/
def matchToken : Str → Str → Option (Str × Str)
  | [], r => some ([], r)
  | _ :: _, [] => none
  | t :: ts, c :: cs =>
    if c.toLower = t then
      match matchToken ts cs with
      | some (m, r) => some (c :: m, r)
      | none => none
    else none

/-- Try one resolution token followed by a dot, returning the matched
source characters. -/
def tryRes (tok : Str) (rest : Str) : Option Str :=
  match matchToken tok rest with
  | some (m, r) => if r.head? = some '.' then some m else none
  | none => none

/-- Match the regex `\.(480p|720p|1080p)\./i` at the head of a string. -/
def matchResAt : Str → Option Str
  | '.' :: rest =>
    match tryRes "480p".data rest with
    | some m => some m
    | none =>
      match tryRes "720p".data rest with
      | some m => some m
      | none => tryRes "1080p".data rest
  | _ => none

/-- Source `extractResolution`: the first `480p`/`720p`/`1080p` token
between dots, uppercased; otherwise the sentinel. -/
def extractResolution (url : Str) : Str :=
  match scanMatch matchResAt url with
  | some m => m.map Char.toUpper
  | none => "Unknown Resolution".data

/-! ## Ingestion grouping pass (part_003, processFile lines 93-105) -/

/-- One image with the video lines attached to it (`{ image, videos }`
object in the source). -/
structure MediaGroup where
  image : Str
  videos : List Str
deriving Repr, DecidableEq

/-- The grouping loop of `processFile`, with the mutable
`currentGroup` threaded explicitly: an image line closes the open group
(if any) and opens a new one; a video line appends to the open group
and is dropped when none is open; any other line is skipped; the open
group is flushed at the end. -/
def buildGroupsLoop : List Str → Option MediaGroup → List MediaGroup
  | [], some g => [g]
  | [], none => []
  | url :: rest, cur =>
    if isImage url then
      match cur with
      | some g => g :: buildGroupsLoop rest (some ⟨url, []⟩)
      | none => buildGroupsLoop rest (some ⟨url, []⟩)
    else if isVideo url then
      match cur with
      | some g => buildGroupsLoop rest (some ⟨g.image, g.videos ++ [url]⟩)
      | none => buildGroupsLoop rest none
    else buildGroupsLoop rest cur

/-- Groups built by `processFile` from the non-blank lines of a file. -/
def buildGroups (urls : List Str) : List MediaGroup :=
  buildGroupsLoop urls none

/-! ## Caption Batcher (part_003, processFile lines 117-146) -/

/-- Default `CAPTION_MAX_LENGTH` from the ingestion source. -/
def CAPTION_MAX_LENGTH : Nat := 1024

/-- The fixed two-line bold header built in `processFile`:
`<b>title</b>\n<b>resolution</b>\n\n`. -/
def mkHeader (title resolution : Str) : Str :=
  "<b>".data ++ title ++ "</b>\n<b>".data ++ resolution ++ "</b>\n\n".data

/-- The item line built for one video in `processFile`:
season/episode label, then a hyperlink whose label is the URL's final
path segment (`video.split("/").pop()`). -/
def linkLine (video : Str) : Str :=
  extractSeasonAndEpisode video ++ ": <a href=\"".data ++ video ++
    "\">".data ++ (splitOnChar '/' video).getLastD [] ++ "</a>".data

/-- The caption accumulation loop of `processFile`: before adding a
line, if the new caption would exceed the limit, send (emit) the
current caption trimmed and restart from the header plus the pending
line; after the loop, send the remaining caption unless it is just the
header. -/
def batchLoop (maxLen : Nat) (header : Str) : List Str → Str → List Str
  | [], caption =>
    if trimStr caption ≠ trimStr header then [trimStr caption] else []
  | video :: rest, caption =>
    let link := linkLine video
    let newCaption := caption ++ link ++ ['\n']
    if newCaption.length > maxLen then
      trimStr caption :: batchLoop maxLen header rest (header ++ link ++ ['\n'])
    else
      batchLoop maxLen header rest newCaption

/-- All caption blocks emitted (passed to `sendPhotoToTelegram`) for
one resolution bucket of one group. -/
def captionBatch (maxLen : Nat) (header : Str) (videos : List Str) : List Str :=
  batchLoop maxLen header videos header

/-- Instrumented form of `batchLoop` that records, for each emitted
block, the list of item lines the block carries (the caption itself is
threaded unchanged so every branch decision is identical to
`batchLoop`). -/
def batchLoopLines (maxLen : Nat) (header : Str) :
    List Str → Str → List Str → List (List Str)
  | [], caption, curLines =>
    if trimStr caption ≠ trimStr header then [curLines] else []
  | video :: rest, caption, curLines =>
    let link := linkLine video
    let newCaption := caption ++ link ++ ['\n']
    if newCaption.length > maxLen then
      curLines :: batchLoopLines maxLen header rest (header ++ link ++ ['\n']) [link]
    else
      batchLoopLines maxLen header rest newCaption (curLines ++ [link])

/-- Item-line lists of the emitted blocks. -/
def batchLines (maxLen : Nat) (header : Str) (videos : List Str) :
    List (List Str) :=
  batchLoopLines maxLen header videos header []

/-- Render a list of item lines as the caption text they contribute:
each line followed by a newline. -/
def linesFlat (ls : List Str) : Str :=
  (ls.map (fun l => l ++ ['\n'])).flatten

/-! ## Delivery Client retry loop (part_003, sendPhotoToTelegram) -/

/-- Maximum retry count from the ingestion source. -/
def MAX_RETRIES : Nat := 3

/-- A structured transport error: whether `error_code === 429` and the
optional `parameters.retry_after` hint. -/
structure TransportError where
  code429 : Bool
  retryAfter : Option Nat
deriving Repr, DecidableEq

/-- One transport response to a send attempt. -/
inductive Response where
  | success
  | failure (e : TransportError)
deriving Repr, DecidableEq

/-- Observable outcome of one `sendPhotoToTelegram` call: whether it
reported success, how many attempts it made, and the sleep durations
(seconds) it performed between attempts. -/
structure SendResult where
  ok : Bool
  attempts : Nat
  sleeps : List Nat
deriving Repr, DecidableEq

/-- The retry recursion of `sendPhotoToTelegram`, with the transport
modelled as a function from attempt index to response.  The source
counts `retryCount` upward and retries while
`error_code === 429 && retryCount < MAX_RETRIES`; here the remaining
budget `MAX_RETRIES - retryCount` is recursed on instead, so the guard
`retryCount < MAX_RETRIES` becomes `budget > 0`.  On a 429 within
budget it sleeps `retry_after` seconds (default 10) and recurses; any
other failure is surfaced at once. -/
def sendGo (responses : Nat → Response) : Nat → Nat → SendResult
  | budget, i =>
    match responses i with
    | .success => ⟨true, 1, []⟩
    | .failure e =>
      if e.code429 then
        match budget with
        | b + 1 =>
          let r := sendGo responses b (i + 1)
          ⟨r.ok, r.attempts + 1, e.retryAfter.getD 10 :: r.sleeps⟩
        | 0 => ⟨false, 1, []⟩
      else ⟨false, 1, []⟩

/-- A full `sendPhotoToTelegram` call (initial `retryCount = 0`, so the
full budget `MAX_RETRIES` is available). -/
def sendPhotoToTelegram (responses : Nat → Response) : SendResult :=
  sendGo responses MAX_RETRIES 0

/-! ## HTML escaping (index.js lines 210-215, part_000 lines 44-49) -/

/-- Source `escapeHtml`: three global replacements applied in source
order — `<` first, then `>`, then `&` last. -/
def escapeHtml (s : Str) : Str :=
  replAll '&' "&amp;".data (replAll '>' "&gt;".data (replAll '<' "&lt;".data s))

/-- Modelled from the spec: the reference HTML escape that maps each
occurrence of `&` to `&amp;`, `<` to `&lt;` and `>` to `&gt;` and
leaves every other character unchanged. -/
def refEscape : Str → Str
  | [] => []
  | c :: cs =>
    (if c = '&' then "&amp;".data
     else if c = '<' then "&lt;".data
     else if c = '>' then "&gt;".data
     else [c]) ++ refEscape cs

/-! ## Catalog Store model (sqlite tables pages and media) -/

/-- One row of the `media` table.  `page_id` is kept as the string it
is compared against (the callback-token field); `resolution` is
nullable. -/
structure MediaRow where
  pageId : Str
  season : Str
  episode : Str
  mtype : Str
  url : Str
  resolution : Option Str
deriving Repr, DecidableEq

/-- Store contents: the `pages` rows (id rendered as a string, name)
and the `media` rows. -/
structure Store where
  pages : List (Str × Str)
  media : List MediaRow
deriving Repr, DecidableEq

/-- SQLite ascending TEXT comparison, modelled as lexicographic
character order. -/
def strLe : Str → Str → Bool
  | [], _ => true
  | _ :: _, [] => false
  | a :: as, b :: bs => if a = b then strLe as bs else decide (a < b)

/-- Stable insertion into a `le`-sorted list. -/
def insertLe (le : Str → Str → Bool) (x : Str) : List Str → List Str
  | [] => [x]
  | y :: ys => if le x y then x :: y :: ys else y :: insertLe le x ys

/-- Sort a list of strings ascending (models `ORDER BY` on a TEXT
column). -/
def sortAsc (l : List Str) : List Str :=
  l.foldr (insertLe strLe) []

/-- Model of `SELECT col ... GROUP BY col ORDER BY col`: the distinct
values, ascending. -/
def distinctSorted (l : List Str) : List Str :=
  sortAsc l.eraseDups

/-- Query of `showSeasons`: distinct seasons of a page. -/
def seasonsFor (store : Store) (pid : Str) : List Str :=
  distinctSorted ((store.media.filter (fun r => r.pageId = pid)).map (fun r => r.season))

/-- Query of `showEpisodes`: distinct episodes of a page and season. -/
def episodesFor (store : Store) (pid season : Str) : List Str :=
  distinctSorted ((store.media.filter
    (fun r => r.pageId = pid ∧ r.season = season)).map (fun r => r.episode))

/-- Stable insertion of a row into a list sorted by `type`
descending: the row goes in front of the first row whose type is less
than or equal to its own. -/
def insertRowDesc (x : MediaRow) : List MediaRow → List MediaRow
  | [] => [x]
  | y :: ys => if strLe y.mtype x.mtype then x :: y :: ys else y :: insertRowDesc x ys

/-- Query of `sendMedia`: all media rows for (page, season, episode),
`ORDER BY type DESC` (stable, so `video` rows come before `image`
rows). -/
def mediaFor (store : Store) (pid season episode : Str) : List MediaRow :=
  (store.media.filter
    (fun r => r.pageId = pid ∧ r.season = season ∧ r.episode = episode)).foldr
    insertRowDesc []


/-! ## Browse State Machine renders (index.js, part_001, part_002) -/

/-- Payload behind an inline button: a callback token or a direct
link. -/
inductive BtnPayload where
  | cb (data : Str)
  | link (url : Str)
deriving Repr, DecidableEq

/-- One inline-keyboard button. -/
structure Button where
  text : Str
  payload : BtnPayload
deriving Repr, DecidableEq

/-- Outbound transport calls a handler can make for one update. -/
inductive BotAction where
  | ack
  | sendMessage (text : Str) (keyboard : List (List Button))
  | sendMediaGroupA (urls : List Str)
  | deleteMessageA
  | sendVideoA (url : Str) (caption : Str)
deriving Repr, DecidableEq

/-- Main-menu render (`sendMainMenu`). -/
def mainMenuRender : List BotAction :=
  [BotAction.sendMessage "Welcome to the bot! Choose an option:".data
    [[⟨"🔍 Search Content".data, BtnPayload.cb "search_init".data⟩],
     [⟨"ℹ️ Help".data, BtnPayload.cb "help".data⟩]]]

/-- Help text shared by the `help` callback branches. -/
def helpText : Str :=
  ("🤖 <b>Bot Commands</b>\n\n/start - Show main menu\n" ++
   "/search <query> - Find content\n\nNavigate using the inline buttons!").data

/-- Season keyboard rows for a page (one button per season plus the
back-to-search row), as built by every `showSeasons` revision. -/
def seasonButtons (pid : Str) (seasons : List Str) : List (List Button) :=
  seasons.map (fun s =>
    [⟨"Season ".data ++ s,
      BtnPayload.cb ("season:".data ++ pid ++ ':' :: s)⟩]) ++
  [[⟨"← Back".data, BtnPayload.cb "back:search".data⟩]]

/-- Episode keyboard rows for a page and season plus the back row. -/
def episodeButtons (pid season : Str) (episodes : List Str) : List (List Button) :=
  episodes.map (fun e =>
    [⟨"Episode ".data ++ e,
      BtnPayload.cb ("episode:".data ++ pid ++ ':' :: season ++ ':' :: e)⟩]) ++
  [[⟨"← Back".data, BtnPayload.cb ("back:page:".data ++ pid)⟩]]

/-- index.js `showSeasons`: loading message, delete it once the query
returns, then the season keyboard. -/
def showSeasonsRender (store : Store) (pid : Str) : List BotAction :=
  [BotAction.sendMessage "⏳ Loading seasons...".data [],
   BotAction.deleteMessageA,
   BotAction.sendMessage "📺 Select season:".data
     (seasonButtons pid (seasonsFor store pid))]

/-- index.js `showEpisodes`. -/
def showEpisodesRender (store : Store) (pid season : Str) : List BotAction :=
  [BotAction.sendMessage "Select episode:".data
    (episodeButtons pid season (episodesFor store pid season))]

/-- Pair buttons two per row (`buttons.splice(0, 2)` loop in index.js
`sendMedia`). -/
def chunk2 : List Button → List (List Button)
  | [] => []
  | [a] => [[a]]
  | a :: b :: r => [a, b] :: chunk2 r

/-- index.js `sendMedia` dispatch on the rows the query returned:
rows whose type is `video` become resolution link buttons
(`resolution || "HD"`), all other rows are images; a grouped-photo
message is sent only if there are images, the resolution-keyboard
message only if there are videos. -/
def sendMediaRender (season episode : Str) (rows : List MediaRow) : List BotAction :=
  let videos := rows.filter (fun r => r.mtype = "video".data)
  let images := rows.filter (fun r => ¬(r.mtype = "video".data))
  (if images.length > 0
   then [BotAction.sendMediaGroupA (images.map (fun r => r.url))]
   else []) ++
  (if videos.length > 0
   then [BotAction.sendMessage
          ("📺 *Season ".data ++ escapeHtml season ++ " Episode ".data ++
            escapeHtml episode ++ "*\nSelect resolution:".data)
          (chunk2 (videos.map (fun r =>
            ⟨r.resolution.getD "HD".data, BtnPayload.link r.url⟩)))]
   else [])

/-- part_001 `sendMedia` dispatch: images are the rows of type
`image`, sent (if any) as one photo group; the videos are then sent
sequentially, a caption only on the first. -/
def sendMediaRenderP1 (season episode : Str) (rows : List MediaRow) : List BotAction :=
  let images := rows.filter (fun r => r.mtype = "image".data)
  let videos := rows.filter (fun r => r.mtype = "video".data)
  (if images.length > 0
   then [BotAction.sendMediaGroupA (images.map (fun r => r.url))]
   else []) ++
  (videos.enum.map (fun p =>
    BotAction.sendVideoA p.2.url
      (if p.1 = 0
       then "Season ".data ++ escapeHtml season ++ " Episode ".data ++
            escapeHtml episode
       else [])))

/-- index.js `handleBackNavigation`. -/
def backRender (store : Store) (parts : List Str) : List BotAction :=
  if parts.getD 1 [] = "search".data then mainMenuRender
  else if parts.getD 1 [] = "page".data ∧ parts.getD 2 [] ≠ [] then
    showSeasonsRender store (parts.getD 2 [])
  else mainMenuRender

/-- index.js callback-query dispatch (lines 266-304): acknowledge,
split the token at colons, switch on the first field; unknown first
fields reach the default branch, a generic unknown-command reply. -/
def renderCallback (tok : Str) (store : Store) : List BotAction :=
  let parts := splitOnChar ':' tok
  let head := parts.headD []
  BotAction.ack ::
  (if head = "search_init".data then
    [BotAction.sendMessage "Please use /search <query> to find content".data []]
  else if head = "help".data then
    [BotAction.sendMessage helpText []]
  else if head = "page".data then
    showSeasonsRender store (parts.getD 1 [])
  else if head = "season".data then
    showEpisodesRender store (parts.getD 1 []) (parts.getD 2 [])
  else if head = "episode".data then
    sendMediaRender (parts.getD 2 []) (parts.getD 3 [])
      (mediaFor store (parts.getD 1 []) (parts.getD 2 []) (parts.getD 3 []))
  else if head = "back".data then
    backRender store parts
  else
    [BotAction.sendMessage "❌ Unknown command".data []])

/-- part_002 help text (plain, no bold tags). -/
def helpTextP2 : Str :=
  ("🤖 Bot Commands:\n\n/start - Show main menu\n" ++
   "/search <query> - Find content\n\nNavigate using the inline buttons!").data

/-- part_002 `sendMedia` dispatch: rows are bucketed by their `type`
column (the schema constrains it to `image` or `video`); images go out
as one photo group if present, videos sequentially with a caption only
on the first (part_002 does not escape the caption). -/
def sendMediaRenderP2 (season episode : Str) (rows : List MediaRow) : List BotAction :=
  let images := rows.filter (fun r => r.mtype = "image".data)
  let videos := rows.filter (fun r => r.mtype = "video".data)
  (if images.length > 0
   then [BotAction.sendMediaGroupA (images.map (fun r => r.url))]
   else []) ++
  (videos.enum.map (fun p =>
    BotAction.sendVideoA p.2.url
      (if p.1 = 0
       then "Season ".data ++ season ++ " Episode ".data ++ episode
       else [])))

/-- part_002 callback-query dispatch (lines 76-106): no
acknowledgement call, and the switch has NO default case, so an
unrecognized first field falls through with no outbound action at all
(`some []`).  The `back` case calls `handleBackNavigation`, which
part_002 never defines — a `ReferenceError` at runtime — modelled as
`none`. -/
def renderCallbackP2 (tok : Str) (store : Store) : Option (List BotAction) :=
  let parts := splitOnChar ':' tok
  let head := parts.headD []
  if head = "search_init".data then
    some [BotAction.sendMessage "Please use /search <query> to find content".data []]
  else if head = "help".data then
    some [BotAction.sendMessage helpTextP2 []]
  else if head = "page".data then
    some [BotAction.sendMessage "Select season:".data
      (seasonButtons (parts.getD 1 []) (seasonsFor store (parts.getD 1 [])))]
  else if head = "season".data then
    some [BotAction.sendMessage "Select episode:".data
      (episodeButtons (parts.getD 1 []) (parts.getD 2 [])
        (episodesFor store (parts.getD 1 []) (parts.getD 2 [])))]
  else if head = "episode".data then
    some (sendMediaRenderP2 (parts.getD 2 []) (parts.getD 3 [])
      (mediaFor store (parts.getD 1 []) (parts.getD 2 []) (parts.getD 3 [])))
  else if head = "back".data then
    none
  else
    some []

/-- Server-held per-user session memory: the `userSessions` map
declared (and never afterwards referenced) at part_002 line 14,
modelled as an association list from chat id to arbitrary state. -/
def Sessions : Type := List (Nat × Str)

/-- The callback handler as a process-level step: it receives the
current session memory alongside the token and the store.  Because no
revision's handler ever reads or writes `userSessions`, the embedded
handler computes its render from the token and the store alone and
returns the session memory unchanged. -/
def handleCallbackQuery (sessions : Sessions) (tok : Str) (store : Store) :
    List BotAction × Sessions :=
  (renderCallback tok store, sessions)

/-! ## Concrete inputs used by counterexamples and witnesses -/

/-- A long video URL (500 letters then `.mp4`): its item line plus the
fixed header exceeds the default caption limit (the URL appears twice
in the line, as hyperlink target and as label). -/
def longVid : Str := List.replicate 500 'a' ++ ".mp4".data

/-- Header of the oversized-line counterexample. -/
def hdrC1 : Str := mkHeader "t".data "720P".data

/-- Two ordinary short video URLs whose item lines fit comfortably
under a limit of 200. -/
def c1vids : List Str := ["a.mp4".data, "b.S01.E02.720p.mp4".data]

/-- A transport that rate-limits the first three attempts (retry hint
2 seconds) and then succeeds. -/
def threeRateLimitsThenOk : Nat → Response := fun i =>
  if i < 3 then Response.failure ⟨true, some 2⟩ else Response.success

/-- A transport that always rate-limits with retry hint 2 seconds. -/
def alwaysRateLimited : Nat → Response := fun _ =>
  Response.failure ⟨true, some 2⟩

/-! ## Helper lemmas -/

/-- Dropping a prefix never lengthens a list. -/
theorem length_dropWhile_le {α : Type} (p : α → Bool) (l : List α) :
    (l.dropWhile p).length ≤ l.length := by
  induction l with
  | nil => simp [List.dropWhile]
  | cons c cs ih =>
    by_cases h : p c
    · simp only [List.dropWhile, h]
      exact le_trans ih (Nat.le_succ _)
    · simp [List.dropWhile, h]

/-- Trimming never lengthens a string. -/
theorem trimStr_length_le (s : Str) : (trimStr s).length ≤ s.length := by
  unfold trimStr
  calc ((s.dropWhile Char.isWhitespace).reverse.dropWhile Char.isWhitespace).reverse.length
      = ((s.dropWhile Char.isWhitespace).reverse.dropWhile Char.isWhitespace).length := by
        rw [List.length_reverse]
    _ ≤ (s.dropWhile Char.isWhitespace).reverse.length := length_dropWhile_le _ _
    _ = (s.dropWhile Char.isWhitespace).length := by rw [List.length_reverse]
    _ ≤ s.length := length_dropWhile_le _ _

/-- Every block the batch loop emits respects the limit, provided the
running caption does and every remaining item line (with the header
and its newline) does. -/
theorem batchLoop_length_le (maxLen : Nat) (header : Str) :
    ∀ (videos : List Str) (caption : Str), caption.length ≤ maxLen →
    (∀ v ∈ videos, (header ++ linkLine v ++ ['\n']).length ≤ maxLen) →
    ∀ b ∈ batchLoop maxLen header videos caption, b.length ≤ maxLen := by
  intro videos
  induction videos with
  | nil =>
    intro caption hcap _ b hb
    unfold batchLoop at hb
    split at hb
    · simp only [List.mem_singleton] at hb
      subst hb
      exact le_trans (trimStr_length_le caption) hcap
    · simp at hb
  | cons v rest ih =>
    intro caption hcap hall b hb
    simp only [batchLoop] at hb
    split at hb
    · simp only [List.mem_cons] at hb
      rcases hb with rfl | hb
      · exact le_trans (trimStr_length_le caption) hcap
      · exact ih _ (hall v (List.mem_cons_self v rest))
          (fun w hw => hall w (List.mem_cons_of_mem v hw)) b hb
    · rename_i hle
      exact ih _ (Nat.le_of_not_lt hle)
        (fun w hw => hall w (List.mem_cons_of_mem v hw)) b hb

/-- Rendering of an item-line list snocced with one more line. -/
theorem linesFlat_append (a : List Str) (l : Str) :
    linesFlat (a ++ [l]) = linesFlat a ++ l ++ ['\n'] := by
  simp [linesFlat, List.map_append, List.flatten_append, List.append_assoc]

/-- The string-level batch loop is the rendering of the instrumented
loop, block by block. -/
theorem batchLoop_eq_lines (maxLen : Nat) (header : Str) :
    ∀ (videos : List Str) (curLines : List Str) (caption : Str),
    caption = header ++ linesFlat curLines →
    batchLoop maxLen header videos caption =
      (batchLoopLines maxLen header videos caption curLines).map
        (fun ls => trimStr (header ++ linesFlat ls)) := by
  intro videos
  induction videos with
  | nil =>
    intro curLines caption hc
    unfold batchLoop batchLoopLines
    split
    · simp [hc]
    · simp
  | cons v rest ih =>
    intro curLines caption hc
    simp only [batchLoop, batchLoopLines]
    split
    · simp only [List.map_cons]
      rw [hc, ih [linkLine v] _ (by simp [linesFlat])]
    · rw [ih (curLines ++ [linkLine v]) _
        (by rw [linesFlat_append, hc]; simp [List.append_assoc])]

/-- Count of non-whitespace characters. -/
def countNW (s : Str) : Nat := s.countP (fun c => !c.isWhitespace)

/-- Dropping leading whitespace keeps the non-whitespace count. -/
theorem countNW_dropWhile (s : Str) :
    countNW (s.dropWhile Char.isWhitespace) = countNW s := by
  induction s with
  | nil => rfl
  | cons c cs ih =>
    by_cases h : c.isWhitespace
    · simp [countNW, List.dropWhile, h, List.countP_cons] at ih ⊢
      exact ih
    · simp [List.dropWhile, h]

/-- Trimming keeps the non-whitespace count. -/
theorem countNW_trim (s : Str) : countNW (trimStr s) = countNW s := by
  unfold trimStr countNW
  rw [List.countP_reverse, ← countNW, countNW_dropWhile, countNW]
  rw [List.countP_reverse, ← countNW, countNW_dropWhile]
  rfl

/-- Appending text containing a non-whitespace character changes the
trimmed string. -/
theorem trim_append_ne (header s : Str)
    (h : ∃ c ∈ s, ¬c.isWhitespace) :
    trimStr (header ++ s) ≠ trimStr header := by
  intro heq
  have h1 : countNW (header ++ s) = countNW header := by
    rw [← countNW_trim (header ++ s), ← countNW_trim header, heq]
  rw [countNW, List.countP_append] at h1
  have h2 : 0 < countNW s := by
    rw [countNW, List.countP_pos_iff]
    obtain ⟨c, hc, hnw⟩ := h
    exact ⟨c, hc, by simp [hnw]⟩
  rw [← countNW, ← countNW] at h1
  omega

/-- Every item line contains a colon (from the fixed hyperlink
skeleton). -/
theorem colon_mem_linkLine (v : Str) : ':' ∈ linkLine v := by
  unfold linkLine
  refine List.mem_append.mpr (Or.inl ?_)
  refine List.mem_append.mpr (Or.inl ?_)
  refine List.mem_append.mpr (Or.inl ?_)
  refine List.mem_append.mpr (Or.inl ?_)
  refine List.mem_append.mpr (Or.inr ?_)
  decide

/-- The instrumented loop's blocks carry exactly the pending lines
followed by one line per remaining input item, in order. -/
theorem batchLoopLines_flatten (maxLen : Nat) (header : Str) :
    ∀ (videos : List Str) (curLines : List Str) (caption : Str),
    caption = header ++ linesFlat curLines →
    (∀ l ∈ curLines, ':' ∈ l) →
    (batchLoopLines maxLen header videos caption curLines).flatten =
      curLines ++ videos.map linkLine := by
  intro videos
  induction videos with
  | nil =>
    intro curLines caption hc hcol
    unfold batchLoopLines
    cases curLines with
    | nil =>
      rw [if_neg]
      · simp
      · simp only [ne_eq, Decidable.not_not]
        rw [hc]
        simp [linesFlat]
    | cons l ls =>
      rw [if_pos]
      · simp
      · rw [hc]
        apply trim_append_ne
        exact ⟨':', by
          simp only [linesFlat, List.map_cons, List.flatten_cons]
          exact List.mem_append.mpr (Or.inl (List.mem_append.mpr
            (Or.inl (hcol l (List.mem_cons_self l ls))))), by decide⟩
  | cons v rest ih =>
    intro curLines caption hc hcol
    simp only [batchLoopLines]
    split
    · rw [List.flatten_cons]
      rw [ih [linkLine v] _ (by simp [linesFlat]) (by
        intro l hl
        simp only [List.mem_singleton] at hl
        subst hl
        exact colon_mem_linkLine v)]
      simp
    · rw [ih (curLines ++ [linkLine v]) _
        (by rw [linesFlat_append, hc]; simp [List.append_assoc])
        (by
          intro l hl
          rcases List.mem_append.mp hl with h | h
          · exact hcol l h
          · simp only [List.mem_singleton] at h
            subst h
            exact colon_mem_linkLine v)]
      simp

/-- A run of k rate-limited responses followed by a success yields
success with k + 1 attempts, for any budget of at least k. -/
theorem sendGo_success_run (responses : Nat → Response) :
    ∀ (k i b : Nat), k ≤ b →
    (∀ j, j < k → ∃ e, responses (i + j) = Response.failure e ∧ e.code429 = true) →
    responses (i + k) = Response.success →
    (sendGo responses b i).ok = true ∧ (sendGo responses b i).attempts = k + 1 := by
  intro k
  induction k with
  | zero =>
    intro i b _ _ hs
    simp only [Nat.add_zero] at hs
    cases b with
    | zero => simp [sendGo, hs]
    | succ b' => simp [sendGo, hs]
  | succ k ih =>
    intro i b hkb h429 hs
    obtain ⟨b', rfl⟩ : ∃ b', b = b' + 1 := ⟨b - 1, by omega⟩
    obtain ⟨e, he, he429⟩ := h429 0 (Nat.succ_pos k)
    rw [Nat.add_zero] at he
    have hrec := ih (i + 1) b' (by omega)
      (fun j hj => by
        obtain ⟨e', he', h4'⟩ := h429 (j + 1) (by omega)
        exact ⟨e', by rw [show i + 1 + j = i + (j + 1) by omega]; exact he', h4'⟩)
      (by rw [show i + 1 + k = i + (k + 1) by omega]; exact hs)
    rw [show sendGo responses (b' + 1) i =
      ⟨(sendGo responses b' (i + 1)).ok, (sendGo responses b' (i + 1)).attempts + 1,
        e.retryAfter.getD 10 :: (sendGo responses b' (i + 1)).sleeps⟩ by
      rw [sendGo, he]; simp [he429]]
    exact ⟨hrec.1, by simp [hrec.2]⟩

/-- A run of only rate-limited responses exhausts the budget: failure
after budget + 1 attempts. -/
theorem sendGo_ratelimit_run (responses : Nat → Response) :
    ∀ (b i : Nat),
    (∀ j, j ≤ b → ∃ e, responses (i + j) = Response.failure e ∧ e.code429 = true) →
    (sendGo responses b i).ok = false ∧ (sendGo responses b i).attempts = b + 1 := by
  intro b
  induction b with
  | zero =>
    intro i h
    obtain ⟨e, he, he429⟩ := h 0 (Nat.le_refl 0)
    rw [Nat.add_zero] at he
    rw [show sendGo responses 0 i = ⟨false, 1, []⟩ by rw [sendGo, he]; simp [he429]]
    exact ⟨rfl, rfl⟩
  | succ b ih =>
    intro i h
    obtain ⟨e, he, he429⟩ := h 0 (Nat.zero_le _)
    rw [Nat.add_zero] at he
    have hrec := ih (i + 1) (fun j hj => by
      obtain ⟨e', he', h4'⟩ := h (j + 1) (by omega)
      exact ⟨e', by rw [show i + 1 + j = i + (j + 1) by omega]; exact he', h4'⟩)
    rw [show sendGo responses (b + 1) i =
      ⟨(sendGo responses b (i + 1)).ok, (sendGo responses b (i + 1)).attempts + 1,
        e.retryAfter.getD 10 :: (sendGo responses b (i + 1)).sleeps⟩ by
      rw [sendGo, he]; simp [he429]]
    exact ⟨hrec.1, by simp [hrec.2]⟩

/-- A non-rate-limit error surfaces immediately: one attempt, no
sleeps, regardless of the remaining budget. -/
theorem sendGo_nonratelimit (responses : Nat → Response) :
    ∀ (b i : Nat) (e : TransportError), responses i = Response.failure e →
    e.code429 = false → sendGo responses b i = ⟨false, 1, []⟩ := by
  intro b i e he he429
  rw [sendGo, he]
  simp [he429]

/-- Splitting distributes over a separator occurrence. -/
theorem splitOnCharAux_sep (c : Char) :
    ∀ (a b : Str) (acc : Str),
    splitOnCharAux c (a ++ c :: b) acc = splitOnCharAux c a acc ++ splitOnChar c b := by
  intro a
  induction a with
  | nil =>
    intro b acc
    simp [splitOnCharAux, splitOnChar]
  | cons x xs ih =>
    intro b acc
    by_cases h : x = c
    · subst h
      simp only [List.cons_append, splitOnCharAux, if_pos rfl, if_true, List.append_eq]
      rw [ih]
    · simp only [List.cons_append, splitOnCharAux, if_neg h]
      exact ih b (x :: acc)

/-- Splitting at an explicit separator occurrence. -/
theorem splitOnChar_sep (c : Char) (a b : Str) :
    splitOnChar c (a ++ c :: b) = splitOnChar c a ++ splitOnChar c b :=
  splitOnCharAux_sep c a b []

/-- Splitting a separator-free string (auxiliary form). -/
theorem splitOnCharAux_no_sep (c : Char) :
    ∀ (s : Str) (acc : Str), c ∉ s →
    splitOnCharAux c s acc = [acc.reverse ++ s] := by
  intro s
  induction s with
  | nil => intro acc _; simp [splitOnCharAux]
  | cons x xs ih =>
    intro acc h
    have hx : ¬(x = c) := fun hc => h (hc ▸ List.mem_cons_self x xs)
    simp only [splitOnCharAux, if_neg hx]
    rw [ih (x :: acc) (fun hm => h (List.mem_cons_of_mem x hm))]
    simp

/-- Splitting a separator-free string yields it whole. -/
theorem splitOnChar_no_sep (c : Char) (s : Str) (h : c ∉ s) :
    splitOnChar c s = [s] := by
  rw [splitOnChar, splitOnCharAux_no_sep c s [] h]
  rfl

/-- The replaced character never survives its own replacement. -/
theorem repl_not_mem_self {c : Char} {rep : Str} (h : c ∉ rep) :
    ∀ s : Str, c ∉ replAll c rep s := by
  intro s
  induction s with
  | nil => simp [replAll]
  | cons x xs ih =>
    by_cases hx : x = c
    · simp only [replAll, if_pos hx, List.mem_append]
      rintro (hm | hm)
      · exact h hm
      · exact ih hm
    · simp only [replAll, if_neg hx, List.mem_cons]
      rintro (rfl | hm)
      · exact hx rfl
      · exact ih hm

/-- Replacement introduces no character outside the replacement
string. -/
theorem repl_not_mem_other {c d : Char} {rep : Str} (hrep : d ∉ rep) :
    ∀ s : Str, d ∉ s → d ∉ replAll c rep s := by
  intro s
  induction s with
  | nil => simp [replAll]
  | cons x xs ih =>
    intro hs
    have hd : ¬(d = x) := fun hdx => hs (hdx ▸ List.mem_cons_self x xs)
    have hxs : d ∉ xs := fun hm => hs (List.mem_cons_of_mem x hm)
    by_cases hx : x = c
    · simp only [replAll, if_pos hx, List.mem_append]
      rintro (hm | hm)
      · exact hrep hm
      · exact ih hxs hm
    · simp only [replAll, if_neg hx, List.mem_cons]
      rintro (hdx | hm)
      · exact hd hdx
      · exact ih hxs hm

/-- Replacement of an absent character is the identity. -/
theorem replAll_of_not_mem {c : Char} {rep : Str} :
    ∀ s : Str, c ∉ s → replAll c rep s = s := by
  intro s
  induction s with
  | nil => intro _; rfl
  | cons x xs ih =>
    intro h
    have hx : ¬(x = c) := fun hc => h (hc ▸ List.mem_cons_self x xs)
    simp only [replAll, if_neg hx]
    rw [ih (fun hm => h (List.mem_cons_of_mem x hm))]

/-- On angle-bracket-free text the ampersand replacement alone is the
reference escape. -/
theorem replAmp_eq_ref : ∀ s : Str, '<' ∉ s → '>' ∉ s →
    replAll '&' "&amp;".data s = refEscape s := by
  intro s
  induction s with
  | nil => intro _ _; rfl
  | cons x xs ih =>
    intro h1 h2
    have hlt : ¬(x = '<') := fun hc => h1 (hc ▸ List.mem_cons_self x xs)
    have hgt : ¬(x = '>') := fun hc => h2 (hc ▸ List.mem_cons_self x xs)
    have ih' := ih (fun hm => h1 (List.mem_cons_of_mem x hm))
      (fun hm => h2 (List.mem_cons_of_mem x hm))
    by_cases hamp : x = '&'
    · subst hamp
      simp [replAll, refEscape, ih']
    · simp only [replAll, if_neg hamp, refEscape, if_neg hamp, if_neg hlt, if_neg hgt]
      rw [ih']
      rfl

/-! ## Claim theorems -/

/-- C1 (counterexample): the claim that every emitted block stays
within the configured maximum, including blocks whose single pending
item line plus the fixed header already exceed it, is false: with the
default limit 1024, a single long URL produces an emitted block longer
than 1024 characters. -/
theorem c1_overflow_counterexample :
    (captionBatch CAPTION_MAX_LENGTH hdrC1 [longVid]).any
      (fun b => decide (CAPTION_MAX_LENGTH < b.length)) = true := by decide

/-- C1 (amended): every block the Caption Batcher emits has length at
most the configured maximum, provided every single item line together
with the fixed header (and its trailing newline) fits within that
maximum. -/
theorem c1_caption_length_bound :
    ∀ (maxLen : Nat) (header : Str) (videos : List Str),
    (∀ v ∈ videos, (header ++ linkLine v ++ ['\n']).length ≤ maxLen) →
    ∀ b ∈ captionBatch maxLen header videos, b.length ≤ maxLen := by
  intro maxLen header videos hall
  cases videos with
  | nil =>
    intro b hb
    unfold captionBatch batchLoop at hb
    rw [if_neg (by simp)] at hb
    simp at hb
  | cons v rest =>
    have hhead : header.length ≤ maxLen := by
      have := hall v (List.mem_cons_self v rest)
      simp only [List.length_append] at this
      omega
    exact batchLoop_length_le maxLen header (v :: rest) header hhead hall

/-- C1 (witness): on two ordinary short URLs under a limit of 200, the
hypothesis of the bound holds and the first emitted block respects the
limit. -/
theorem c1_caption_length_bound_witness :
    ((captionBatch 200 hdrC1 c1vids).headD []).length ≤ 200 :=
  c1_caption_length_bound 200 hdrC1 c1vids (by decide) _ (by decide)

/-- C2: the caption strings emitted by the batch loop are exactly the
trimmed renderings (fixed header plus item lines) of the instrumented
loop's blocks, and concatenating the blocks' item-line lists in
emission order reproduces one line per input item, in input order —no
loss, no reordering, no duplication. -/
theorem c2_batch_reproduces_items :
    ∀ (maxLen : Nat) (header : Str) (videos : List Str),
    captionBatch maxLen header videos =
      (batchLines maxLen header videos).map
        (fun ls => trimStr (header ++ linesFlat ls)) ∧
    (batchLines maxLen header videos).flatten = videos.map linkLine := by
  intro maxLen header videos
  constructor
  · unfold captionBatch batchLines
    exact batchLoop_eq_lines maxLen header videos [] header (by simp [linesFlat])
  · unfold batchLines
    rw [batchLoopLines_flatten maxLen header videos [] header
      (by simp [linesFlat]) (by simp)]
    simp

/-- C3: the ingestion grouping scan — an image line closes the open
group and starts a new one, a video line attaches to the open group, a
video line with no open group is dropped, and the spec's five-line
example yields exactly the two expected groups. -/
theorem c3_grouping_scan :
    (∀ (url : Str) (rest : List Str) (g : MediaGroup), isImage url = true →
      buildGroupsLoop (url :: rest) (some g) =
        g :: buildGroupsLoop rest (some ⟨url, []⟩)) ∧
    (∀ (url : Str) (rest : List Str), isImage url = true →
      buildGroupsLoop (url :: rest) none = buildGroupsLoop rest (some ⟨url, []⟩)) ∧
    (∀ (url : Str) (rest : List Str) (g : MediaGroup),
      isImage url = false → isVideo url = true →
      buildGroupsLoop (url :: rest) (some g) =
        buildGroupsLoop rest (some ⟨g.image, g.videos ++ [url]⟩)) ∧
    (∀ (url : Str) (rest : List Str), isImage url = false → isVideo url = true →
      buildGroupsLoop (url :: rest) none = buildGroupsLoop rest none) ∧
    buildGroups (["img1.jpg", "vid1.S01.E01.720p.mp4", "vid2.S01.E01.1080p.mp4",
      "img2.png", "vid3.S01.E02.mp4"].map String.data) =
    [⟨"img1.jpg".data, ["vid1.S01.E01.720p.mp4".data, "vid2.S01.E01.1080p.mp4".data]⟩,
     ⟨"img2.png".data, ["vid3.S01.E02.mp4".data]⟩] := by
  refine ⟨?_, ?_, ?_, ?_, by decide⟩
  · intro url rest g h
    simp [buildGroupsLoop, h]
  · intro url rest h
    simp [buildGroupsLoop, h]
  · intro url rest g h hv
    simp [buildGroupsLoop, h, hv]
  · intro url rest h hv
    simp [buildGroupsLoop, h, hv]

/-- C3 (witness): one image line arriving while a group is open closes
that group and opens a new one. -/
theorem c3_grouping_scan_witness :
    buildGroupsLoop ["x.jpg".data] (some ⟨"i.png".data, []⟩) =
      (⟨"i.png".data, []⟩ : MediaGroup) :: buildGroupsLoop [] (some ⟨"x.jpg".data, []⟩) :=
  c3_grouping_scan.1 "x.jpg".data [] ⟨"i.png".data, []⟩ (by decide)

/-- C4: the Metadata Extractor round-trip examples — the
season/episode pair with leading zeros preserved (rendered by the
source as one string), the uppercased resolution token, the
episode-only convention, and the sentinel for an unparseable name. -/
theorem c4_metadata_roundtrip :
    extractSeasonAndEpisode "show.S01.E03.1080p.mkv".data =
      "Season 01, Episode 03".data ∧
    extractResolution "show.S01.E03.1080p.mkv".data = "1080P".data ∧
    extractSeasonAndEpisode "show.07.mp4".data = "Episode 07".data ∧
    extractSeasonAndEpisode "show.mp4".data =
      "Unknown Season and Episode".data := by decide

/-- C5 (counterexample): MAX_RETRIES (3) consecutive rate-limit
responses do NOT cause failure: with the fourth response a success,
the call reports success after 4 attempts. -/
theorem c5_three_ratelimits_counterexample :
    (sendPhotoToTelegram threeRateLimitsThenOk).ok = true ∧
    (sendPhotoToTelegram threeRateLimitsThenOk).attempts = MAX_RETRIES + 1 := by
  decide

/-- C5 (amended): the retry contract of sendPhotoToTelegram — a
non-rate-limit error surfaces immediately with one attempt and no
sleep; each rate-limit response within the budget sleeps retry_after
(default 10) and retries; at most MAX_RETRIES consecutive rate-limit
responses followed by a success report success; an unbroken run of
rate-limit responses reports failure after exactly MAX_RETRIES + 1
attempts. -/
theorem c5_retry_contract : ∀ responses : Nat → Response,
    (∀ e, responses 0 = Response.failure e → e.code429 = false →
      sendPhotoToTelegram responses = ⟨false, 1, []⟩) ∧
    (∀ (b i : Nat) (e : TransportError), responses i = Response.failure e →
      e.code429 = true →
      sendGo responses (b + 1) i =
        ⟨(sendGo responses b (i + 1)).ok, (sendGo responses b (i + 1)).attempts + 1,
          e.retryAfter.getD 10 :: (sendGo responses b (i + 1)).sleeps⟩) ∧
    (∀ k, k ≤ MAX_RETRIES →
      (∀ j, j < k → ∃ e, responses j = Response.failure e ∧ e.code429 = true) →
      responses k = Response.success →
      (sendPhotoToTelegram responses).ok = true ∧
      (sendPhotoToTelegram responses).attempts = k + 1) ∧
    ((∀ j, j ≤ MAX_RETRIES → ∃ e, responses j = Response.failure e ∧ e.code429 = true) →
      (sendPhotoToTelegram responses).ok = false ∧
      (sendPhotoToTelegram responses).attempts = MAX_RETRIES + 1) := by
  intro responses
  refine ⟨?_, ?_, ?_, ?_⟩
  · intro e he h429
    exact sendGo_nonratelimit responses MAX_RETRIES 0 e he h429
  · intro b i e he h429
    rw [sendGo, he]
    simp [h429]
  · intro k hk h429 hs
    exact sendGo_success_run responses k 0 MAX_RETRIES hk
      (fun j hj => by simpa using h429 j hj) (by simpa using hs)
  · intro h429
    exact sendGo_ratelimit_run responses MAX_RETRIES 0
      (fun j hj => by simpa using h429 j hj)

/-- C5 (witness): a transport that always rate-limits makes the call
fail after exactly MAX_RETRIES + 1 attempts. -/
theorem c5_retry_contract_witness :
    (sendPhotoToTelegram alwaysRateLimited).ok = false ∧
    (sendPhotoToTelegram alwaysRateLimited).attempts = MAX_RETRIES + 1 :=
  (c5_retry_contract alwaysRateLimited).2.2.2 (fun _ _ => ⟨⟨true, some 2⟩, rfl, rfl⟩)

/-- C6: statelessness of the callback handler — for any two session
memories the renders agree, the session memory is never mutated, and
replaying the same token after a first handling renders the identical
screen; the output is a function of (token, store contents) only. -/
theorem c6_callback_stateless : ∀ (s1 s2 : Sessions) (tok : Str) (store : Store),
    (handleCallbackQuery s1 tok store).1 = (handleCallbackQuery s2 tok store).1 ∧
    (handleCallbackQuery s1 tok store).2 = s1 ∧
    (handleCallbackQuery (handleCallbackQuery s1 tok store).2 tok store).1 =
      (handleCallbackQuery s1 tok store).1 := by
  intro s1 s2 tok store
  exact ⟨rfl, rfl, rfl⟩

/-- C7 (counterexample): escapeHtml is not the reference escape: on
the single character `<` it produces the doubly-escaped form, because
the ampersand replacement runs last and re-escapes the entity it just
introduced. -/
theorem c7_escape_counterexample :
    escapeHtml ['<'] = "&amp;lt;".data ∧ refEscape ['<'] = "&lt;".data ∧
    escapeHtml ['<'] ≠ refEscape ['<'] := by decide

/-- C7 (amended): escapeHtml agrees with the reference escape exactly
on inputs free of angle brackets, and its output never contains a raw
angle bracket, so formatting injection via the markup characters
remains impossible even though angle brackets are double-escaped. -/
theorem c7_escape_contract : ∀ s : Str,
    (('<' ∉ s ∧ '>' ∉ s) → escapeHtml s = refEscape s) ∧
    ('<' ∉ escapeHtml s ∧ '>' ∉ escapeHtml s) := by
  intro s
  constructor
  · rintro ⟨h1, h2⟩
    unfold escapeHtml
    rw [replAll_of_not_mem s h1, replAll_of_not_mem s h2, replAmp_eq_ref s h1 h2]
  · unfold escapeHtml
    constructor
    · exact repl_not_mem_other (by decide) _
        (repl_not_mem_other (by decide) _ (repl_not_mem_self (by decide) s))
    · exact repl_not_mem_other (by decide) _
        (repl_not_mem_self (by decide) _)

/-- C7 (witness): on an angle-bracket-free string the two escapes
coincide. -/
theorem c7_escape_contract_witness :
    escapeHtml "a&b".data = refEscape "a&b".data :=
  (c7_escape_contract "a&b".data).1 (by decide)

/-- C8 (counterexample): extractFileName joins the remaining name
parts with commas (the JavaScript Array.prototype.join default), not
with the original dots: the claim's expected output differs from the
code's. -/
theorem c8_filename_counterexample :
    extractFileName "http://h/show.S01.E01.mkv".data = "show,S01,E01".data ∧
    extractFileName "http://h/show.S01.E01.mkv".data ≠ "show.S01.E01".data := by
  decide

/-- C8 (amended): for any URL whose final path segment contains no
slash, extractFileName strips the trailing extension and replaces
dashes by spaces, but joins the remaining dot-separated parts with a
comma rather than keeping the original dots. -/
theorem c8_filename_amended : ∀ (dir fname : Str), '/' ∉ fname →
    extractFileName (dir ++ '/' :: fname) =
      (joinWith [','] ((splitOnChar '.' fname).dropLast)).map
        (fun c => if c = '-' then ' ' else c) := by
  intro dir fname h
  unfold extractFileName
  rw [splitOnChar_sep, splitOnChar_no_sep '/' fname h, List.getLastD_concat]

/-- C8 (witness): the amended description evaluated on a concrete
URL. -/
theorem c8_filename_amended_witness :
    extractFileName ("http://h".data ++ '/' :: "show.S01.E01.mkv".data) =
      (joinWith [','] ((splitOnChar '.' "show.S01.E01.mkv".data).dropLast)).map
        (fun c => if c = '-' then ' ' else c) :=
  c8_filename_amended "http://h".data "show.S01.E01.mkv".data (by decide)

/-- C9 (counterexample): the part_002 callback dispatch has no default
case, so a token with unrecognized first field produces no outbound
action at all — in particular no unknown-command reply. -/
theorem c9_silent_counterexample :
    renderCallbackP2 "foo:1".data ⟨[], []⟩ = some [] := by decide

/-- C9 (amended): for a token whose first colon-delimited field is not
a recognized transition, the index.js handler acknowledges and sends
exactly the generic unknown-command reply, while the part_002 handler
silently does nothing. -/
theorem c9_unknown_command : ∀ (tok : Str) (store : Store),
    (splitOnChar ':' tok).headD [] ∉
      ["search_init".data, "help".data, "page".data, "season".data,
       "episode".data, "back".data] →
    renderCallback tok store =
      [BotAction.ack, BotAction.sendMessage "❌ Unknown command".data []] ∧
    renderCallbackP2 tok store = some [] := by
  intro tok store h
  simp only [List.mem_cons, not_or] at h
  obtain ⟨h1, h2, h3, h4, h5, h6, -⟩ := h
  simp only [List.headD_eq_head?] at h1 h2 h3 h4 h5 h6
  constructor
  · simp [renderCallback, List.headD_eq_head?, h1, h2, h3, h4, h5, h6]
  · simp [renderCallbackP2, List.headD_eq_head?, h1, h2, h3, h4, h5, h6]

/-- C9 (witness): the amended behaviour on a concrete unrecognized
token against the empty store. -/
theorem c9_unknown_command_witness :
    renderCallback "zap:7".data ⟨[], []⟩ =
      [BotAction.ack, BotAction.sendMessage "❌ Unknown command".data []] ∧
    renderCallbackP2 "zap:7".data ⟨[], []⟩ = some [] :=
  c9_unknown_command "zap:7".data ⟨[], []⟩ (by decide)

/-- C10: when the media query returns no rows, the mediaView dispatch
of index.js and of part_001 sends nothing at all — no photo group, no
video, no resolution keyboard, no notice. -/
theorem c10_empty_media_silent : ∀ (season episode : Str),
    sendMediaRender season episode [] = [] ∧
    sendMediaRenderP1 season episode [] = [] := by
  intro season episode
  constructor
  · simp [sendMediaRender]
  · simp [sendMediaRenderP1]
